import Mathlib

/-!
Verification development for the StudentActivityTracker pipeline.

The Python sources are shallowly embedded: scores are modelled as exact
rationals (the decimal values the code manipulates), Python strings as
Lean strings, Python dicts (which preserve insertion order) as
association lists, and fallible code as `Except`.  Every definition below
is translated from a named function of the repository; doc comments name
the source location.
-/

set_option maxRecDepth 4000

/-! ## String utilities shared by the embeddings

Python `str.strip()` removes leading and trailing whitespace.  We model
the common ASCII whitespace characters. -/

def isPyWS (c : Char) : Bool :=
  c = ' ' || c = '\t' || c = '\n' || c = '\r'

def stripLead (l : List Char) : List Char := l.dropWhile isPyWS

def stripTrail (l : List Char) : List Char := (l.reverse.dropWhile isPyWS).reverse

/-- Model of Python `str.strip()` with no arguments. -/
def pyStrip (s : String) : String := String.mk (stripTrail (stripLead s.toList))

/-- Checks that the first list is an initial segment of the second
(model of Python `str.startswith` on the character level). -/
def leadsWith : List Char → List Char → Bool
  | [], _ => true
  | _ :: _, [] => false
  | a :: as, b :: bs => a == b && leadsWith as bs

/-- Model of Python `needle in hay` (substring containment). -/
def containsSub (ndl : List Char) : List Char → Bool
  | [] => ndl.isEmpty
  | c :: t => leadsWith ndl (c :: t) || containsSub ndl t

/-- Model of Python `needle in hay` on strings. -/
def pyIn (needle hay : String) : Bool := containsSub needle.toList hay.toList

/-- Model of Python `s.startswith(pre)`. -/
def pyStartsWith (s pre : String) : Bool := leadsWith pre.toList s.toList

/-- Worker for `pyReplace`: scans left to right; a positive skip counter
means the character belongs to an already-replaced match and is dropped.
Structural recursion on the scanned list so that concrete evaluation
reduces. -/
def replAux (pat rep : List Char) : List Char → Nat → List Char
  | [], _ => []
  | _ :: t, skip + 1 => replAux pat rep t skip
  | c :: t, 0 =>
    if !pat.isEmpty && leadsWith pat (c :: t) then
      rep ++ replAux pat rep t (pat.length - 1)
    else c :: replAux pat rep t 0

/-- Model of Python `s.replace(pat, rep)` for a non-empty pattern:
left-to-right, non-overlapping. -/
def pyReplace (s pat rep : String) : String :=
  String.mk (replAux pat.toList rep.toList s.toList 0)

/-- Table of Vietnamese precomposed letters: (lowercase, uppercase, ASCII base
letter).  It models the effect of Python `str.upper` / `str.lower` and of
NFKD-decomposition plus combining-mark removal on the Vietnamese alphabet
(the letter đ, which has no canonical decomposition, is mapped to `d` just as
`searcher.remove_vietnamese_diacritics` does explicitly). -/
def viTable : List (Char × Char × Char) :=
  [('à', 'À', 'a'), ('á', 'Á', 'a'), ('ả', 'Ả', 'a'), ('ã', 'Ã', 'a'), ('ạ', 'Ạ', 'a'),
   ('ă', 'Ă', 'a'), ('ắ', 'Ắ', 'a'), ('ằ', 'Ằ', 'a'), ('ẳ', 'Ẳ', 'a'), ('ẵ', 'Ẵ', 'a'), ('ặ', 'Ặ', 'a'),
   ('â', 'Â', 'a'), ('ấ', 'Ấ', 'a'), ('ầ', 'Ầ', 'a'), ('ẩ', 'Ẩ', 'a'), ('ẫ', 'Ẫ', 'a'), ('ậ', 'Ậ', 'a'),
   ('è', 'È', 'e'), ('é', 'É', 'e'), ('ẻ', 'Ẻ', 'e'), ('ẽ', 'Ẽ', 'e'), ('ẹ', 'Ẹ', 'e'),
   ('ê', 'Ê', 'e'), ('ế', 'Ế', 'e'), ('ề', 'Ề', 'e'), ('ể', 'Ể', 'e'), ('ễ', 'Ễ', 'e'), ('ệ', 'Ệ', 'e'),
   ('ì', 'Ì', 'i'), ('í', 'Í', 'i'), ('ỉ', 'Ỉ', 'i'), ('ĩ', 'Ĩ', 'i'), ('ị', 'Ị', 'i'),
   ('ò', 'Ò', 'o'), ('ó', 'Ó', 'o'), ('ỏ', 'Ỏ', 'o'), ('õ', 'Õ', 'o'), ('ọ', 'Ọ', 'o'),
   ('ô', 'Ô', 'o'), ('ố', 'Ố', 'o'), ('ồ', 'Ồ', 'o'), ('ổ', 'Ổ', 'o'), ('ỗ', 'Ỗ', 'o'), ('ộ', 'Ộ', 'o'),
   ('ơ', 'Ơ', 'o'), ('ớ', 'Ớ', 'o'), ('ờ', 'Ờ', 'o'), ('ở', 'Ở', 'o'), ('ỡ', 'Ỡ', 'o'), ('ợ', 'Ợ', 'o'),
   ('ù', 'Ù', 'u'), ('ú', 'Ú', 'u'), ('ủ', 'Ủ', 'u'), ('ũ', 'Ũ', 'u'), ('ụ', 'Ụ', 'u'),
   ('ư', 'Ư', 'u'), ('ứ', 'Ứ', 'u'), ('ừ', 'Ừ', 'u'), ('ử', 'Ử', 'u'), ('ữ', 'Ữ', 'u'), ('ự', 'Ự', 'u'),
   ('ỳ', 'Ỳ', 'y'), ('ý', 'Ý', 'y'), ('ỷ', 'Ỷ', 'y'), ('ỹ', 'Ỹ', 'y'), ('ỵ', 'Ỵ', 'y'),
   ('đ', 'Đ', 'd')]

/-- Model of Python `str.upper` on one character (ASCII plus the Vietnamese
letters the sources care about). -/
def pyUpperChar (c : Char) : Char :=
  if 'a' ≤ c && c ≤ 'z' then c.toUpper
  else match viTable.find? (fun t => t.1 = c) with
    | some t => t.2.1
    | none => c

/-- Model of Python `str.lower` on one character. -/
def pyLowerChar (c : Char) : Char :=
  if 'A' ≤ c && c ≤ 'Z' then c.toLower
  else match viTable.find? (fun t => t.2.1 = c) with
    | some t => t.1
    | none => c

def pyUpperStr (s : String) : String := String.mk (s.toList.map pyUpperChar)

def pyLowerStr (s : String) : String := String.mk (s.toList.map pyLowerChar)

/-- Value of a digit run, e.g. `digitsToNat ['2','0'] = 20`. -/
def digitsToNat (l : List Char) : Nat :=
  l.foldl (fun a c => 10 * a + (c.toNat - 48)) 0

/-- First match of the pattern `\d+\.?\d*`: the leading digit run and, when a
dot follows it, the digit run after the dot.  Returns `none` when the text
holds no digit. -/
def firstNumberMatch : List Char → Option (List Char × Option (List Char))
  | [] => none
  | c :: t =>
    if c.isDigit then
      let intPart := (c :: t).takeWhile Char.isDigit
      let rest := (c :: t).dropWhile Char.isDigit
      match rest with
      | d :: r2 => if d = '.' then some (intPart, some (r2.takeWhile Char.isDigit)) else some (intPart, none)
      | [] => some (intPart, none)
    else firstNumberMatch t

/-- Rational value of a `firstNumberMatch` result, the number Python
`float(...)` would return on the matched text. -/
def matchValue (m : List Char × Option (List Char)) : ℚ :=
  (digitsToNat m.1 : ℚ) +
    match m.2 with
    | none => 0
    | some f => (digitsToNat f : ℚ) / (10 : ℚ) ^ f.length

/-- First match of the pattern `\d+` (used by ordinal parsing). -/
def firstIntMatch : List Char → Option (List Char)
  | [] => none
  | c :: t => if c.isDigit then some ((c :: t).takeWhile Char.isDigit) else firstIntMatch t

/-! ## Data model -/

/-- One normalized per-activity student record, the dict built by
`parser.parse_student_table` / `sheet_parser.parse_worksheet` (the document
path attaches `activity_name` / `activity_link` afterwards; rows produced
there carry `""` in those fields). -/
structure StudentRow where
  stt : Nat
  name : String
  student_id : String
  student_class : String
  score : ℚ
  activity_name : String
  activity_link : String
deriving DecidableEq

/-- One entry of a profile's `history` list. -/
structure HistoryEntry where
  stt : Nat
  activity_name : String
  score : ℚ
  activity_link : String
deriving DecidableEq

structure StudentInfo where
  name : String
  student_class : String
deriving DecidableEq

structure StudentStats where
  total_score : ℚ
  activity_count : Nat
deriving DecidableEq

/-- The per-student aggregation unit of `aggregator.aggregate_by_student`
and `merge_data.merge_student_data`. -/
structure StudentProfile where
  info : StudentInfo
  stats : StudentStats
  history : List HistoryEntry
deriving DecidableEq

/-- A profile store: Python dict from student_id to profile, modelled as an
insertion-ordered association list. -/
abbrev Store := List (String × StudentProfile)

/-- Dict lookup (first entry with the given key). -/
def lookupA : Store → String → Option StudentProfile
  | [], _ => none
  | p :: t, k => if p.1 = k then some p.2 else lookupA t k

/-- Dict in-place value update: the entry keeps its position. -/
def updateA (s : Store) (k : String) (v : StudentProfile) : Store :=
  s.map (fun p => if p.1 = k then (p.1, v) else p)

def keysA (s : Store) : List String := s.map Prod.fst

/-- Sum of the `score` fields of a history, as in
`sum(h.get('score', 0) for h in existing['history'])`. -/
def sumScores (h : List HistoryEntry) : ℚ := (h.map HistoryEntry.score).sum

/-- Round-half-to-even on integers scaled from a rational, the rounding used
by Python `round` and pandas `.round`. -/
def roundHalfEven (q : ℚ) : ℤ :=
  let f := ⌊q⌋
  let r := q - (f : ℚ)
  if r < 1 / 2 then f
  else if 1 / 2 < r then f + 1
  else if f % 2 = 0 then f else f + 1

/-- Model of Python `round(q, 1)`. -/
def round1 (q : ℚ) : ℚ := ((roundHalfEven (10 * q) : ℤ) : ℚ) / 10

/-! ## parser.py (document-table path) -/

namespace Parser

/-- Shallow embedding of `parser.parse_score` (parser.py:122).  Empty text
gives 0.0; otherwise the text is stripped, the comma decimal separator is
replaced by a period, and the first `\d+\.?\d*` match is parsed.  Note the
document path has neither a date check nor a plausibility ceiling. -/
def parse_score (score_text : String) : ℚ :=
  if score_text = "" then 0
  else
    let clean_text := pyReplace (pyStrip score_text) "," "."
    match firstNumberMatch clean_text.toList with
    | some m => matchValue m
    | none => 0

/-- Shallow embedding of `parser.parse_stt` (parser.py:149). -/
def parse_stt (stt_text : String) : Nat :=
  if stt_text = "" then 0
  else
    match firstIntMatch (pyStrip stt_text).toList with
    | some ds => digitsToNat ds
    | none => 0

/-- Shallow embedding of `parser.clean_student_id` (parser.py:173):
`raw_id.strip().upper().replace(" ", "")` (no `".0"` handling here). -/
def clean_student_id (raw_id : String) : String :=
  if raw_id = "" then ""
  else pyReplace (pyUpperStr (pyStrip raw_id)) " " ""

/-- Shallow embedding of `parser.is_student_id` (parser.py:188): the
space-stripped value is all digits and at least 8 characters long. -/
def is_student_id (value : String) : Bool :=
  let clean_val := pyReplace (pyStrip value) " " ""
  clean_val ≠ "" && clean_val.toList.all Char.isDigit && decide (8 ≤ clean_val.length)

/-- Character class of the regex in `parser.is_class_code`: ASCII capitals
plus the listed Vietnamese capitals. -/
def isClassLetter (c : Char) : Bool :=
  ('A' ≤ c && c ≤ 'Z') ||
    ['Đ', 'À', 'Á', 'Ả', 'Ã', 'Ạ', 'Ă', 'Ắ', 'Ằ', 'Ẳ', 'Ẵ', 'Ặ',
     'Â', 'Ấ', 'Ầ', 'Ẩ', 'Ẫ', 'Ậ'].contains c

/-- Shallow embedding of `parser.is_class_code` (parser.py:203): after
stripping, removing spaces and uppercasing, the value must match
`^\d{2}[A-ZĐÀ...Ậ]+\d*$`. -/
def is_class_code (value : String) : Bool :=
  let clean_val := pyUpperStr (pyReplace (pyStrip value) " " "")
  match clean_val.toList with
  | c1 :: c2 :: rest =>
    c1.isDigit && c2.isDigit &&
      !(rest.takeWhile isClassLetter).isEmpty &&
      (rest.dropWhile isClassLetter).all Char.isDigit
  | _ => false

/-- Shallow embedding of `parser.smart_swap_id_class` (parser.py:220).  Both
inputs are stripped first; the three repair cases are tried in order and
otherwise the stripped pair is returned. -/
def smart_swap_id_class (raw_id raw_class : String) : String × String :=
  let rid := pyStrip raw_id
  let rcls := pyStrip raw_class
  if is_class_code rid && is_student_id rcls then (rcls, rid)
  else if rid = "" && is_student_id rcls then (rcls, "")
  else if is_class_code rid && rcls = "" then ("", rid)
  else (rid, rcls)

/-- Loop body of `parser.parse_student_table` (parser.py:268-306) for one row,
after the five cell texts were fetched: swap heuristic, id cleaning, the
discard-if-both-empty rule and the sentinel substitutions.  The document path
leaves `activity_name` / `activity_link` empty (they are attached later by
`parse_docx_file`). -/
def normalize_row (stt_text name_in raw_id raw_class score_text : String) : Option StudentRow :=
  let stt := parse_stt stt_text
  let sw := smart_swap_id_class raw_id raw_class
  let student_id := clean_student_id sw.1
  let student_class := pyStrip sw.2
  if student_id = "" && name_in = "" then none
  else
    let name2 := if name_in = "" then "UNKNOWN_NAME" else name_in
    let sid2 :=
      if student_id = "" then
        if 0 < stt then "UNKNOWN_ID_" ++ toString stt else "UNKNOWN_ID"
      else student_id
    let cls2 := if student_class = "" then "UNKNOWN_CLASS" else student_class
    some { stt := stt, name := name2, student_id := sid2, student_class := cls2,
           score := parse_score score_text, activity_name := "", activity_link := "" }

/-- Column indices detected by `parser.detect_column_indices`; `-1` means the
column is absent. -/
structure ColumnIndices where
  stt : Int
  name : Int
  student_id : Int
  student_class : Int
  score : Int
deriving DecidableEq

/-- Shallow embedding of `parser.parse_student_table` (parser.py:251): skip
the header row, fetch each cell by detected index (missing columns give `""`,
a missing score column gives `"0"`; stt and name are stripped at the fetch
site as in the source), then normalize the row. -/
def parse_student_table (rows : List (List String)) (idx : ColumnIndices) : List StudentRow :=
  (rows.drop 1).filterMap (fun cells =>
    let stt_text := if 0 ≤ idx.stt then pyStrip (cells.getD idx.stt.toNat "") else ""
    let name := if 0 ≤ idx.name then pyStrip (cells.getD idx.name.toNat "") else ""
    let raw_id := if 0 ≤ idx.student_id then cells.getD idx.student_id.toNat "" else ""
    let raw_class := if 0 ≤ idx.student_class then cells.getD idx.student_class.toNat "" else ""
    let score_text := if 0 ≤ idx.score then cells.getD idx.score.toNat "" else "0"
    normalize_row stt_text name raw_id raw_class score_text)

end Parser

/-! ## sheet_parser.py (spreadsheet path) -/

/-- A raw score cell on the spreadsheet path: pandas NA, a datetime artifact,
or a text value (`str(score_val)` of whatever the cell held). -/
inductive ScoreCell where
  | na : ScoreCell
  | date : ScoreCell
  | txt : String → ScoreCell
deriving DecidableEq

namespace SheetParser

/-- Shallow embedding of `sheet_parser.parse_score` (sheet_parser.py:74):
NA and datetime cells give 0.0; otherwise the text pipeline of the document
path runs and a parsed value of 1000 or more is replaced by 0.0. -/
def parse_score : ScoreCell → ℚ
  | ScoreCell.na => 0
  | ScoreCell.date => 0
  | ScoreCell.txt s =>
    let clean_text := pyReplace (pyStrip s) "," "."
    match firstNumberMatch clean_text.toList with
    | some m =>
      let score := matchValue m
      if score < 1000 then score else 0
    | none => 0

/-- Shallow embedding of `sheet_parser.clean_student_id` (sheet_parser.py:40):
`str(raw_id).strip().upper().replace(" ", "").replace(".0", "")`.  Note the
final replace removes every occurrence of `".0"`, not only a trailing one.
The `pd.isna` branch never fires on the string inputs this receives. -/
def clean_student_id (raw_id : String) : String :=
  pyReplace (pyReplace (pyUpperStr (pyStrip raw_id)) " " "") ".0" ""

/-- Shallow embedding of `sheet_parser.is_student_id` (sheet_parser.py:47). -/
def is_student_id (value : String) : Bool :=
  Parser.is_student_id value

/-- Shallow embedding of `sheet_parser.is_class_code` (sheet_parser.py:53),
textually the same test as the document path. -/
def is_class_code (value : String) : Bool :=
  Parser.is_class_code value

/-- Shallow embedding of `sheet_parser.smart_swap_id_class`
(sheet_parser.py:59); on string inputs `str(x).strip() if x else ""` is
`strip`, so the logic coincides with the document path. -/
def smart_swap_id_class (raw_id raw_class : String) : String × String :=
  Parser.smart_swap_id_class raw_id raw_class

def invalid_ids : List String := ["", "NAN", "NONE", "NULL"]

def invalid_names : List String := ["", "nan", "none", "null"]

/-- Loop body of `sheet_parser.parse_worksheet` (sheet_parser.py:273-320) for
one row, after `stt` was resolved and the raw cell texts fetched: swap
heuristic, id cleaning, the invalid-value checks (which also treat the string
forms nan/none/null as empty), the discard rule and the sentinels. -/
def normalize_row (stt : Nat) (name_raw raw_id raw_class : String) (score_val : ScoreCell)
    (activity_name activity_link : String) : Option StudentRow :=
  let name := pyStrip name_raw
  let sw := smart_swap_id_class raw_id raw_class
  let student_id := clean_student_id sw.1
  let student_class := pyStrip sw.2
  let id_is_invalid := student_id = "" || invalid_ids.contains student_id
  let name_is_invalid := name = "" || invalid_names.contains (pyLowerStr name)
  if id_is_invalid && name_is_invalid then none
  else
    let name2 := if name_is_invalid then "UNKNOWN_NAME" else name
    let sid2 := if id_is_invalid then "UNKNOWN_ID_" ++ toString stt else student_id
    let cls2 :=
      if student_class = "" || ["nan", "none", "null"].contains (pyLowerStr student_class) then
        "UNKNOWN_CLASS"
      else student_class
    some { stt := stt, name := name2, student_id := sid2, student_class := cls2,
           score := parse_score score_val, activity_name := activity_name,
           activity_link := activity_link }

end SheetParser

/-! ## aggregator.py -/

/-- Insertion step for a lexicographic string sort, mirroring that pandas
`groupby` (with its default `sort=True`) orders group keys. -/
def insertSorted (x : String) : List String → List String
  | [] => [x]
  | y :: t => if x ≤ y then x :: y :: t else y :: insertSorted x t

def sortStrings (l : List String) : List String := l.foldr insertSorted []

/-- Distinct keys in first-occurrence order. -/
def dedupKeys (l : List String) : List String :=
  l.foldl (fun acc x => if acc.contains x then acc else acc ++ [x]) []

/-- Profile built by `aggregator.aggregate_by_student` for one student_id:
`info` takes the group's first values (pandas `first`), `total_score` is the
group's score sum rounded to 1 decimal place (`.round(1)`), `activity_count`
the group size, and `history` the group's rows projected to
`{stt, activity_name, score, activity_link}` in original order. -/
def aggProfile (rows : List StudentRow) (sid : String) : StudentProfile :=
  let group := rows.filter (fun r => r.student_id = sid)
  { info := { name := ((group.map StudentRow.name).headD ""),
              student_class := ((group.map StudentRow.student_class).headD "") },
    stats := { total_score := round1 ((group.map StudentRow.score).sum),
               activity_count := group.length },
    history := group.map (fun r =>
      { stt := r.stt, activity_name := r.activity_name,
        score := r.score, activity_link := r.activity_link }) }

/-- Shallow embedding of `aggregator.aggregate_by_student` (aggregator.py:31):
group the flat rows by `student_id` (pandas `groupby` sorts the keys) and
build each student's profile. -/
def aggregate_by_student (rows : List StudentRow) : Store :=
  (sortStrings (dedupKeys (rows.map StudentRow.student_id))).map
    (fun sid => (sid, aggProfile rows sid))

/-! ## scripts/merge_data.py -/

/-- Shallow embedding of `merge_data.merge_student_data`
(scripts/merge_data.py:45), rendering the loop over `new_data.items()` as
recursion on the (insertion-ordered) new store with the accumulated merged
store as first argument; returns `(merged, new_count, updated_count)`.
An unseen student_id is appended verbatim; a known one has the incoming
history entries whose `activity_link` is absent from the existing history's
link set appended, and its stats recomputed as the plain (unrounded) score
sum and the history length. -/
def merge_student_data (merged : Store) : Store → Store × Nat × Nat
  | [] => (merged, 0, 0)
  | (mssv, student) :: rest =>
    match lookupA merged mssv with
    | none =>
      let r := merge_student_data (merged ++ [(mssv, student)]) rest
      (r.1, r.2.1 + 1, r.2.2)
    | some existing =>
      let existing_links := existing.history.map HistoryEntry.activity_link
      let new_acts := student.history.filter (fun a => !(existing_links.contains a.activity_link))
      let hist := existing.history ++ new_acts
      let prof : StudentProfile :=
        { existing with
          history := hist
          stats := { total_score := sumScores hist, activity_count := hist.length } }
      let r := merge_student_data (updateA merged mssv prof) rest
      (r.1, r.2.1, r.2.2 + new_acts.length)

/-- Result of merging one incoming profile into an existing one, written the
way the specification describes it (history union deduplicated by
`activity_link` against the existing history, stats recomputed as the plain
sum and the merged length).  Used to state the merge theorems. -/
def mergedProfile (existing incoming : StudentProfile) : StudentProfile :=
  let hist := existing.history ++
    incoming.history.filter
      (fun a => !((existing.history.map HistoryEntry.activity_link).contains a.activity_link))
  { existing with
    history := hist
    stats := { total_score := sumScores hist, activity_count := hist.length } }

/-- Number of history entries a merge would append for one entry of the new
store against the store `st` (0 when the student is unknown there, where the
merge copies instead of appending). -/
def updWeight (st : Store) (p : String × StudentProfile) : Nat :=
  match lookupA st p.1 with
  | none => 0
  | some po =>
    (p.2.history.filter
      (fun a => !((po.history.map HistoryEntry.activity_link).contains a.activity_link))).length

/-! ## searcher.py -/

namespace Searcher

/-- Shallow embedding of `searcher.remove_vietnamese_diacritics`
(searcher.py:22): NFKD-decompose and drop combining marks (modelled by the
Vietnamese letter table), rewrite đ/Đ to d/D, and lowercase. -/
def remove_vietnamese_diacritics (text : String) : String :=
  pyLowerStr (String.mk (text.toList.map (fun c =>
    match viTable.find? (fun t => t.1 = c) with
    | some t => t.2.2
    | none =>
      match viTable.find? (fun t => t.2.1 = c) with
      | some t => t.2.2.toUpper
      | none => c)))

/-- Shallow embedding of `searcher.has_digit` (searcher.py:36). -/
def has_digit (text : String) : Bool := text.toList.any Char.isDigit

/-- Shallow embedding of `searcher.search_by_mssv` (searcher.py:41): exact
dict hit on the stripped uppercased query, else case-insensitive substring
scan over all ids capped at 10. -/
def search_by_mssv (query : String) (data : Store) : List (String × StudentProfile) :=
  let query_upper := pyUpperStr (pyStrip query)
  match lookupA data query_upper with
  | some sd => [(query_upper, sd)]
  | none =>
    (data.filter (fun p => pyIn query_upper (pyUpperStr p.1))).take 10

/-- Shallow embedding of `searcher.search_by_name` (searcher.py:67):
diacritic-stripped case-insensitive substring scan over all names, capped at
10. -/
def search_by_name (query : String) (data : Store) : List (String × StudentProfile) :=
  let query_normalized := remove_vietnamese_diacritics (pyStrip query)
  (data.filter (fun p =>
    pyIn query_normalized (remove_vietnamese_diacritics p.2.info.name))).take 10

/-- Shallow embedding of `searcher.search_student` (searcher.py:92), with the
profile store passed explicitly in place of the cached file load: empty or
whitespace-only query gives `[]`; a query holding a digit dispatches to the
id search on the stripped query, any other query to the name search. -/
def search_student (query : String) (data : Store) : List (String × StudentProfile) :=
  if pyStrip query = "" then []
  else
    let q := pyStrip query
    if has_digit q then search_by_mssv q data
    else search_by_name q data

end Searcher

/-! ## extractor.py -/

inductive LinkType where
  | internal : LinkType
  | external : LinkType
deriving DecidableEq

/-- One extracted link dict of `extractor.extract_links`. -/
structure LinkRef where
  display_text : String
  link_type : LinkType
  url : Option String
  sheet_name : Option String
deriving DecidableEq

/-- An openpyxl hyperlink: a direct URL target and/or an in-document cell
location. -/
structure Hyperlink where
  target : Option String
  location : Option String
deriving DecidableEq

/-- A worksheet cell: its text value (if any) and its hyperlink (if any). -/
structure XCell where
  val : Option String
  hyperlink : Option Hyperlink
deriving DecidableEq

/-- A workbook: the filename stem, the sheet names, and the active worksheet
as a 1-indexed grid with its reported extent (reads outside the grid give an
empty cell, as in openpyxl). -/
structure Workbook where
  stem : String
  sheetnames : List String
  maxRow : Nat
  maxCol : Nat
  grid : List (List XCell)

namespace Extractor

def emptyXCell : XCell := { val := none, hyperlink := none }

def cellAt (wb : Workbook) (r c : Nat) : XCell :=
  (wb.grid.getD (r - 1) []).getD (c - 1) emptyXCell

/-- The `MASTER_LINK` table of extractor.py:13, keys 2020..2022 only. -/
def MASTER_LINK : List (Nat × Option String) :=
  [(2020, some "https://docs.google.com/spreadsheets/d/1QWdhplM8SzatAbQUG5N8xlefUCZGEIfZ/edit?gid=1391010033#gid=1391010033"),
   (2021, none),
   (2022, some "https://docs.google.com/spreadsheets/d/1fWDcSwa9p3lbOceJOaBluFqGT9JPPwiF/edit?gid=1627022443#gid=1627022443")]

/-- Dict lookup in `MASTER_LINK`; `none` models a KeyError. -/
def lookupNat : List (Nat × Option String) → Nat → Option (Option String)
  | [], _ => none
  | p :: t, k => if p.1 = k then some p.2 else lookupNat t k

/-- First `\d{4}` match in a filename stem. -/
def findYear4 : List Char → Option Nat
  | c1 :: c2 :: c3 :: c4 :: rest =>
    if c1.isDigit && c2.isDigit && c3.isDigit && c4.isDigit then
      some (digitsToNat [c1, c2, c3, c4])
    else findYear4 (c2 :: c3 :: c4 :: rest)
  | _ => none

/-- Shallow embedding of `extractor.get_file_year` (extractor.py:20). -/
def get_file_year (wb : Workbook) : Nat := (findYear4 wb.stem.toList).getD 9999

def link_keywords : List String := ["link", "sheet", "quyết định công nhận nrl"]

/-- Shallow embedding of `extractor.find_link_column` (extractor.py:26): the
first column whose header-row cell is non-empty and whose lowercased text
holds one of the keywords. -/
def find_link_column (wb : Workbook) (header_row : Nat) : Option Nat :=
  ((List.range wb.maxCol).map (fun c => c + 1)).find? (fun col =>
    match (cellAt wb header_row col).val with
    | some v => v ≠ "" && link_keywords.any (fun kw => pyIn kw (pyLowerStr v))
    | none => false)

def quoteChar : Char := Char.ofNat 39

/-- Scan for the quoted pattern of `parse_sheet_location`: the first point
where a non-empty accumulated capture is followed by a quote and a bang,
which is exactly the lazy match of the anchored regex. -/
def qbScan (acc : List Char) : List Char → Option String
  | a :: b :: t =>
    if a = quoteChar && b = '!' && !acc.isEmpty then some (String.mk acc)
    else qbScan (acc ++ [a]) (b :: t)
  | _ => none

/-- Recognizer for `\$?[A-Z]+\$?\d+` as a prefix of the remaining text. -/
def cellRefAfterBang (l : List Char) : Bool :=
  let l1 := match l with
    | c :: t => if c = '$' then t else l
    | [] => l
  let letters := l1.takeWhile (fun c => 'A' ≤ c && c ≤ 'Z')
  let l2 := l1.dropWhile (fun c => 'A' ≤ c && c ≤ 'Z')
  let l3 := match l2 with
    | c :: t => if c = '$' then t else l2
    | [] => l2
  !letters.isEmpty && !(l3.takeWhile Char.isDigit).isEmpty

/-- Scan for the unquoted pattern `(.+?)!\$?[A-Z]+\$?\d+` of
`parse_sheet_location`; the lazy capture is stripped as in the source. -/
def p2Scan (acc : List Char) : List Char → Option String
  | a :: t =>
    if a = '!' && !acc.isEmpty && cellRefAfterBang t then some (pyStrip (String.mk acc))
    else p2Scan (acc ++ [a]) t
  | [] => none

/-- Shallow embedding of `extractor.parse_sheet_location` (extractor.py:38):
try the quoted form first, then the unquoted cell-reference form. -/
def parse_sheet_location (location : String) : Option String :=
  if location = "" then none
  else
    match location.toList with
    | [] => none
    | c :: rest =>
      if c = quoteChar then
        match qbScan [] rest with
        | some name => some name
        | none => p2Scan [] (c :: rest)
      else p2Scan [] (c :: rest)

/-- Body of the row loop of `extractor.extract_links` (extractor.py:84-120)
for the cell read from one row: `Except.error` models the uncaught KeyError
on `MASTER_LINK`, `Except.ok none` a skipped row. -/
def processCell (wb : Workbook) (file_year : Nat) (is_old : Bool) (cell : XCell) :
    Except String (Option LinkRef) :=
  match cell.hyperlink with
  | none => Except.ok none
  | some hl =>
    let display_text := match cell.val with
      | some v => v
      | none => ""
    if is_old then
      match hl.location with
      | some loc =>
        if loc = "" then Except.ok none
        else
          match parse_sheet_location loc with
          | some sheet_name =>
            if wb.sheetnames.contains sheet_name then
              if file_year = 2021 then
                Except.ok (some { display_text := display_text, link_type := LinkType.internal,
                                  url := some display_text, sheet_name := some sheet_name })
              else
                match lookupNat MASTER_LINK file_year with
                | some u =>
                  Except.ok (some { display_text := display_text, link_type := LinkType.internal,
                                    url := u, sheet_name := some sheet_name })
                | none => Except.error ("KeyError: " ++ toString file_year)
            else Except.ok none
          | none => Except.ok none
      | none => Except.ok none
    else
      if (match hl.target with
          | some t => t != ""
          | none => false) then
        Except.ok (some { display_text := display_text, link_type := LinkType.external,
                          url := hl.target, sheet_name := none })
      else
        match hl.location with
        | some loc =>
          if loc = "" then Except.ok none
          else
            match parse_sheet_location loc with
            | some sheet_name =>
              if wb.sheetnames.contains sheet_name then
                let url := if pyStartsWith display_text "http" then display_text else loc
                Except.ok (some { display_text := display_text, link_type := LinkType.internal,
                                  url := some url, sheet_name := some sheet_name })
              else Except.ok none
            | none => Except.ok none
        | none => Except.ok none

/-- Row step of the loop of `extractor.extract_links`: process the cell at
`(r, link_col)`. -/
def processRow (wb : Workbook) (link_col : Nat) (file_year : Nat) (is_old : Bool) (r : Nat) :
    Except String (Option LinkRef) :=
  processCell wb file_year is_old (cellAt wb r link_col)

/-- The loop's break test `if limit and len(links) >= limit` — a limit of `0`
is falsy in Python and never breaks. -/
def brkLimit (limit : Option Nat) (acc : List LinkRef) : Bool :=
  match limit with
  | none => false
  | some m => (m != 0) && decide (m ≤ acc.length)

/-- Row loop of `extractor.extract_links`, accumulating the link list. -/
def extractLoop (wb : Workbook) (link_col file_year : Nat) (is_old : Bool) :
    List Nat → List LinkRef → Option Nat → Except String (List LinkRef)
  | [], acc, _ => Except.ok acc
  | r :: rs, acc, limit =>
    if brkLimit limit acc then Except.ok acc
    else
      match processRow wb link_col file_year is_old r with
      | Except.error e => Except.error e
      | Except.ok none => extractLoop wb link_col file_year is_old rs acc limit
      | Except.ok (some l) => extractLoop wb link_col file_year is_old rs (acc ++ [l]) limit

/-- Rows scanned by `extract_links`: `range(header_row + 1, max_row + 1)`
with the fixed `header_row = 2`. -/
def rowRange (wb : Workbook) : List Nat := List.range' 3 (wb.maxRow - 2)

/-- Shallow embedding of `extractor.extract_links` (extractor.py:60). -/
def extract_links (wb : Workbook) (limit : Option Nat) : Except String (List LinkRef) :=
  match find_link_column wb 2 with
  | none => Except.error "Khong tim thay cot Link trong file Excel"
  | some link_col =>
    let file_year := get_file_year wb
    let is_old := decide (file_year ≤ 2022)
    extractLoop wb link_col file_year is_old (rowRange wb) [] limit

end Extractor

/-! ## Concrete fixtures used by counterexamples and witnesses -/

/-- A profile as initial aggregation produces it: one activity worth 0.25,
whose rounded total is 0.2. -/
def profS : StudentProfile :=
  { info := { name := "SV A", student_class := "22DHTT02" }
    stats := { total_score := (1 : ℚ) / 5, activity_count := 1 }
    history := [{ stt := 1, activity_name := "ACT", score := (1 : ℚ) / 4, activity_link := "a" }] }

/-- A second, unrelated profile. -/
def profR : StudentProfile :=
  { info := { name := "SV R", student_class := "X" }
    stats := { total_score := 1, activity_count := 1 }
    history := [{ stt := 1, activity_name := "ACTR", score := 1, activity_link := "r" }] }

/-- A post-2022 workbook whose header row names a Link column and whose rows
3 and 4 carry external hyperlinks. -/
def wbNew : Workbook :=
  { stem := "2023-2024"
    sheetnames := ["Main"]
    maxRow := 4
    maxCol := 1
    grid := [[{ val := none, hyperlink := none }],
             [{ val := some "Link", hyperlink := none }],
             [{ val := some "X", hyperlink := some { target := some "http://a", location := none } }],
             [{ val := some "Y", hyperlink := some { target := some "http://b", location := none } }]] }

def wbLinkX : LinkRef :=
  { display_text := "X", link_type := LinkType.external, url := some "http://a", sheet_name := none }

def wbLinkY : LinkRef :=
  { display_text := "Y", link_type := LinkType.external, url := some "http://b", sheet_name := none }

/-- A workbook whose filename year token is 2019 (at most 2022 but absent
from `MASTER_LINK`), with one internal hyperlink to an existing sheet. -/
def wbOld19 : Workbook :=
  { stem := "2019-2020"
    sheetnames := ["S1"]
    maxRow := 3
    maxCol := 1
    grid := [[{ val := none, hyperlink := none }],
             [{ val := some "Link", hyperlink := none }],
             [{ val := some "T", hyperlink := some { target := none, location := some "'S1'!A1" } }]] }

/-- A single normalized activity row, used to instantiate the aggregation
theorems. -/
def rowA : StudentRow :=
  { stt := 1, name := "N", student_id := "S1", student_class := "C",
    score := (1 : ℚ) / 4, activity_name := "ACT", activity_link := "a" }

/-- Decidable test for the rows of an old-year workbook on which
`extract_links` would consult `MASTER_LINK`: the row's cell carries a
hyperlink whose location is a non-empty cell reference naming an existing
sheet. -/
def cellQualifies (wb : Workbook) (cell : XCell) : Bool :=
  match cell.hyperlink with
  | none => false
  | some hl =>
    match hl.location with
    | none => false
    | some loc =>
      if loc = "" then false
      else
        match Extractor.parse_sheet_location loc with
        | none => false
        | some nm => wb.sheetnames.contains nm

/-- The qualifying test applied to the cell the scan reads at row `r`. -/
def rowQualifies (wb : Workbook) (c r : Nat) : Bool :=
  cellQualifies wb (Extractor.cellAt wb r c)

/-! ## Helper lemmas: stripping -/

theorem dropWhile_head_false (p : Char → Bool) :
    ∀ (l : List Char) (c : Char), (l.dropWhile p).head? = some c → p c = false := by
  intro l
  induction l with
  | nil => intro c h; simp at h
  | cons a t ih =>
    intro c h
    rw [List.dropWhile_cons] at h
    cases hpa : p a
    · rw [hpa] at h
      simp only [Bool.false_eq_true, if_false, List.head?_cons, Option.some.injEq] at h
      rw [← h]; exact hpa
    · rw [hpa] at h
      simp only [if_true] at h
      exact ih c h

theorem dropWhile_self_of_head (p : Char → Bool) (l : List Char)
    (h : ∀ c, l.head? = some c → p c = false) : l.dropWhile p = l := by
  cases l with
  | nil => rfl
  | cons a t =>
    rw [List.dropWhile_cons, h a rfl]
    simp

theorem dropWhile_self_idem (p : Char → Bool) (l : List Char) :
    (l.dropWhile p).dropWhile p = l.dropWhile p :=
  dropWhile_self_of_head p _ (dropWhile_head_false p l)

theorem dropWhile_exists_pre (p : Char → Bool) :
    ∀ l : List Char, ∃ u, u ++ l.dropWhile p = l := by
  intro l
  induction l with
  | nil => exact ⟨[], rfl⟩
  | cons a t ih =>
    cases hpa : p a
    · exact ⟨[], by simp [List.dropWhile_cons, hpa]⟩
    · obtain ⟨u, hu⟩ := ih
      refine ⟨a :: u, ?_⟩
      simp only [List.dropWhile_cons, hpa, if_true, List.cons_append, hu]

theorem stripTrail_exists_post (l : List Char) : ∃ t, stripTrail l ++ t = l := by
  obtain ⟨u, hu⟩ := dropWhile_exists_pre isPyWS l.reverse
  refine ⟨u.reverse, ?_⟩
  have h2 := congrArg List.reverse hu
  simpa [stripTrail] using h2

theorem stripTrail_head? (l : List Char) (c : Char) (h : (stripTrail l).head? = some c) :
    l.head? = some c := by
  obtain ⟨t, ht⟩ := stripTrail_exists_post l
  cases hs : stripTrail l with
  | nil => rw [hs] at h; simp at h
  | cons b u =>
    rw [hs] at h
    simp only [List.head?_cons, Option.some.injEq] at h
    rw [hs] at ht
    rw [← ht]
    simp [h]

theorem stripLead_stripTrail (l : List Char) (h : stripLead l = l) :
    stripLead (stripTrail l) = stripTrail l := by
  show (stripTrail l).dropWhile isPyWS = stripTrail l
  apply dropWhile_self_of_head
  intro c hc
  have hl : l.head? = some c := stripTrail_head? l c hc
  have hd := dropWhile_head_false isPyWS l c
  have h2 : l.dropWhile isPyWS = l := h
  rw [h2] at hd
  exact hd hl

theorem stripTrail_idem (l : List Char) : stripTrail (stripTrail l) = stripTrail l := by
  show ((stripTrail l).reverse.dropWhile isPyWS).reverse = stripTrail l
  rw [show (stripTrail l).reverse = l.reverse.dropWhile isPyWS from by simp [stripTrail]]
  rw [dropWhile_self_idem]
  rfl

theorem pyStrip_idem (s : String) : pyStrip (pyStrip s) = pyStrip s := by
  have h1 : stripLead (stripLead s.toList) = stripLead s.toList :=
    dropWhile_self_idem isPyWS s.toList
  have h2 : stripLead (stripTrail (stripLead s.toList)) = stripTrail (stripLead s.toList) :=
    stripLead_stripTrail _ h1
  show String.mk (stripTrail (stripLead (stripTrail (stripLead s.toList)))) = pyStrip s
  rw [h2, stripTrail_idem]
  rfl

/-! ## Helper lemmas: association-list stores -/

theorem lookupA_append_ne (s : Store) (p : String × StudentProfile) (k : String)
    (h : p.1 ≠ k) : lookupA (s ++ [p]) k = lookupA s k := by
  induction s with
  | nil => simp [lookupA, h]
  | cons q t ih =>
    by_cases hq : q.1 = k
    · simp [lookupA, hq]
    · simp [lookupA, hq, ih]

theorem lookupA_append_self (s : Store) (p : String × StudentProfile)
    (h : lookupA s p.1 = none) : lookupA (s ++ [p]) p.1 = some p.2 := by
  induction s with
  | nil => simp [lookupA]
  | cons q t ih =>
    by_cases hq : q.1 = p.1
    · rw [lookupA, if_pos hq] at h
      exact absurd h (by simp)
    · rw [lookupA, if_neg hq] at h
      simp only [List.cons_append, lookupA, if_neg hq]
      exact ih h

theorem lookupA_updateA (s : Store) (k : String) (v : StudentProfile) (q : String) :
    lookupA (updateA s k v) q =
      if k = q then (lookupA s q).map (fun _ => v) else lookupA s q := by
  induction s with
  | nil =>
    simp only [updateA, List.map_nil, lookupA]
    by_cases h : k = q <;> simp [h]
  | cons p t ih =>
    simp only [updateA, List.map_cons] at ih ⊢
    by_cases hpk : p.1 = k
    · by_cases hq : k = q
      · subst hq
        rw [if_pos hpk]
        simp only [lookupA, hpk, if_pos rfl, if_pos rfl]
        simp
      · rw [if_pos hpk]
        have hpq : ¬ p.1 = q := by rw [hpk]; exact hq
        simp only [lookupA, if_neg hpq, if_neg hq] at ih ⊢
        exact ih
    · rw [if_neg hpk]
      by_cases hpq : p.1 = q
      · have hkq : ¬ k = q := by
          intro hc
          exact hpk (by rw [hpq, hc])
        simp only [lookupA, if_pos hpq, if_neg hkq]
      · simp only [lookupA, if_neg hpq]
        exact ih

theorem lookupA_eq_none (s : Store) (k : String) :
    lookupA s k = none ↔ ∀ p ∈ s, p.1 ≠ k := by
  induction s with
  | nil => simp [lookupA]
  | cons q t ih =>
    by_cases hq : q.1 = k
    · simp [lookupA, hq]
    · simp [lookupA, hq, ih]

theorem not_key_of_nodup (rest : Store) (mssv : String) (h : mssv ∉ keysA rest) :
    ∀ p ∈ rest, p.1 ≠ mssv := by
  intro p hp hc
  exact h (hc ▸ List.mem_map_of_mem Prod.fst hp)

theorem lookupA_of_mem (s : Store) (h : (keysA s).Nodup) :
    ∀ p ∈ s, lookupA s p.1 = some p.2 := by
  induction s with
  | nil => intro p hp; simp at hp
  | cons q t ih =>
    have hnd : q.1 ∉ keysA t ∧ (keysA t).Nodup := by
      simpa [keysA, List.nodup_cons] using h
    intro p hp
    rcases List.mem_cons.mp hp with hpq | hpt
    · subst hpq
      simp [lookupA]
    · have hne : p.1 ≠ q.1 := not_key_of_nodup t q.1 hnd.1 p hpt
      rw [lookupA, if_neg (fun hc => hne hc.symm)]
      exact ih hnd.2 p hpt

/-! ## Helper lemmas: the cross-run merge -/

theorem merge_notin : ∀ (new st : Store) (k : String),
    (∀ p ∈ new, p.1 ≠ k) →
    lookupA (merge_student_data st new).1 k = lookupA st k := by
  intro new
  induction new with
  | nil => intro st k _; rfl
  | cons q rest ih =>
    intro st k h
    obtain ⟨mssv, student⟩ := q
    have hq : mssv ≠ k := h (mssv, student) (List.mem_cons_self _ _)
    have hrest : ∀ p ∈ rest, p.1 ≠ k := fun p hp => h p (List.mem_cons_of_mem _ hp)
    cases hm : lookupA st mssv with
    | none =>
      simp only [merge_student_data, hm]
      rw [ih _ k hrest, lookupA_append_ne _ _ _ hq]
    | some ex =>
      simp only [merge_student_data, hm]
      rw [ih _ k hrest, lookupA_updateA, if_neg hq]

theorem merge_new : ∀ (new st : Store) (k : String) (pr : StudentProfile),
    (keysA new).Nodup → lookupA new k = some pr → lookupA st k = none →
    lookupA (merge_student_data st new).1 k = some pr := by
  intro new
  induction new with
  | nil => intro st k pr _ h _; simp [lookupA] at h
  | cons q rest ih =>
    intro st k pr hnd hnew hst
    obtain ⟨mssv, student⟩ := q
    have hnd2 : mssv ∉ keysA rest ∧ (keysA rest).Nodup := by
      simpa [keysA, List.nodup_cons] using hnd
    by_cases hk : mssv = k
    · subst hk
      have hpr : student = pr := by
        rw [lookupA, if_pos rfl] at hnew
        exact Option.some.inj hnew
      simp only [merge_student_data, hst]
      rw [merge_notin rest _ mssv (not_key_of_nodup rest mssv hnd2.1)]
      rw [show lookupA (st ++ [(mssv, student)]) mssv = some student from
            lookupA_append_self st (mssv, student) hst]
      rw [hpr]
    · rw [lookupA, if_neg hk] at hnew
      cases hm : lookupA st mssv with
      | none =>
        simp only [merge_student_data, hm]
        exact ih _ k pr hnd2.2 hnew (by rw [lookupA_append_ne _ _ _ hk]; exact hst)
      | some ex =>
        simp only [merge_student_data, hm]
        exact ih _ k pr hnd2.2 hnew (by rw [lookupA_updateA, if_neg hk]; exact hst)

theorem merge_both : ∀ (new st : Store) (k : String) (po pn : StudentProfile),
    (keysA new).Nodup → lookupA st k = some po → lookupA new k = some pn →
    lookupA (merge_student_data st new).1 k = some (mergedProfile po pn) := by
  intro new
  induction new with
  | nil => intro st k po pn _ _ h; simp [lookupA] at h
  | cons q rest ih =>
    intro st k po pn hnd hst hnew
    obtain ⟨mssv, student⟩ := q
    have hnd2 : mssv ∉ keysA rest ∧ (keysA rest).Nodup := by
      simpa [keysA, List.nodup_cons] using hnd
    by_cases hk : mssv = k
    · subst hk
      have hpn : student = pn := by
        rw [lookupA, if_pos rfl] at hnew
        exact Option.some.inj hnew
      simp only [merge_student_data, hst]
      rw [merge_notin rest _ mssv (not_key_of_nodup rest mssv hnd2.1)]
      rw [lookupA_updateA, if_pos rfl, hst]
      rw [← hpn]
      rfl
    · rw [lookupA, if_neg hk] at hnew
      cases hm : lookupA st mssv with
      | none =>
        simp only [merge_student_data, hm]
        exact ih _ k po pn hnd2.2 (by rw [lookupA_append_ne _ _ _ hk]; exact hst) hnew
      | some ex =>
        simp only [merge_student_data, hm]
        exact ih _ k po pn hnd2.2 (by rw [lookupA_updateA, if_neg hk]; exact hst) hnew

theorem merge_added : ∀ (new st : Store), (keysA new).Nodup →
    (merge_student_data st new).2.1 =
      (new.filter (fun p => (lookupA st p.1).isNone)).length := by
  intro new
  induction new with
  | nil => intro st _; rfl
  | cons q rest ih =>
    intro st hnd
    obtain ⟨mssv, student⟩ := q
    have hnd2 : mssv ∉ keysA rest ∧ (keysA rest).Nodup := by
      simpa [keysA, List.nodup_cons] using hnd
    have hcongr : ∀ st' : Store, (∀ p ∈ rest, lookupA st' p.1 = lookupA st p.1) →
        rest.filter (fun p => (lookupA st' p.1).isNone) =
          rest.filter (fun p => (lookupA st p.1).isNone) :=
      fun st' h => List.filter_congr (fun p hp => by rw [h p hp])
    cases hm : lookupA st mssv with
    | none =>
      simp only [merge_student_data, hm]
      rw [ih _ hnd2.2]
      rw [hcongr _ (fun p hp =>
        lookupA_append_ne _ _ _ (not_key_of_nodup rest mssv hnd2.1 p hp).symm)]
      simp [List.filter_cons, hm]
    | some ex =>
      simp only [merge_student_data, hm]
      rw [ih _ hnd2.2]
      rw [hcongr _ (fun p hp => by
        rw [lookupA_updateA, if_neg (not_key_of_nodup rest mssv hnd2.1 p hp).symm])]
      simp [List.filter_cons, hm]

theorem updWeight_congr (st st' : Store) (p : String × StudentProfile)
    (h : lookupA st' p.1 = lookupA st p.1) : updWeight st' p = updWeight st p := by
  unfold updWeight
  rw [h]

theorem merge_updated : ∀ (new st : Store), (keysA new).Nodup →
    (merge_student_data st new).2.2 = (new.map (updWeight st)).sum := by
  intro new
  induction new with
  | nil => intro st _; rfl
  | cons q rest ih =>
    intro st hnd
    obtain ⟨mssv, student⟩ := q
    have hnd2 : mssv ∉ keysA rest ∧ (keysA rest).Nodup := by
      simpa [keysA, List.nodup_cons] using hnd
    have hcongr : ∀ st' : Store, (∀ p ∈ rest, lookupA st' p.1 = lookupA st p.1) →
        (rest.map (updWeight st')).sum = (rest.map (updWeight st)).sum := by
      intro st' h
      have : rest.map (updWeight st') = rest.map (updWeight st) :=
        List.map_congr_left (fun p hp => updWeight_congr st st' p (h p hp))
      rw [this]
    cases hm : lookupA st mssv with
    | none =>
      simp only [merge_student_data, hm]
      rw [ih _ hnd2.2]
      rw [hcongr _ (fun p hp =>
        lookupA_append_ne _ _ _ (not_key_of_nodup rest mssv hnd2.1 p hp).symm)]
      have hw : updWeight st (mssv, student) = 0 := by
        unfold updWeight
        rw [hm]
      simp [hw]
    | some ex =>
      simp only [merge_student_data, hm]
      rw [ih _ hnd2.2]
      rw [hcongr _ (fun p hp => by
        rw [lookupA_updateA, if_neg (not_key_of_nodup rest mssv hnd2.1 p hp).symm])]
      have hw : updWeight st (mssv, student) =
          (student.history.filter (fun a =>
            !((ex.history.map HistoryEntry.activity_link).contains a.activity_link))).length := by
        unfold updWeight
        rw [hm]
      rw [List.map_cons, List.sum_cons, hw]
      exact Nat.add_comm _ _

theorem mergedProfile_history (po pn : StudentProfile) :
    (mergedProfile po pn).history =
      po.history ++ pn.history.filter (fun a =>
        !((po.history.map HistoryEntry.activity_link).contains a.activity_link)) := rfl

theorem mergedProfile_stats (po pn : StudentProfile) :
    (mergedProfile po pn).stats =
      { total_score := sumScores (mergedProfile po pn).history,
        activity_count := (mergedProfile po pn).history.length } := rfl

theorem mergedProfile_info (po pn : StudentProfile) :
    (mergedProfile po pn).info = po.info := rfl

theorem contains_of_mem_links (hist : List HistoryEntry) (a : HistoryEntry) (ha : a ∈ hist) :
    (hist.map HistoryEntry.activity_link).contains a.activity_link = true :=
  List.elem_iff.mpr (List.mem_map_of_mem _ ha)

theorem filter_links_nil (incoming : List HistoryEntry) (links : List String)
    (h : ∀ a ∈ incoming, links.contains a.activity_link = true) :
    incoming.filter (fun a => !(links.contains a.activity_link)) = [] := by
  apply List.filter_eq_nil_iff.mpr
  intro a ha
  rw [h a ha]
  simp

theorem mergedProfile_covered (q pn : StudentProfile)
    (h : ∀ a ∈ pn.history,
      ((q.history.map HistoryEntry.activity_link).contains a.activity_link) = true) :
    mergedProfile q pn =
      { q with stats := { total_score := sumScores q.history,
                          activity_count := q.history.length } } := by
  unfold mergedProfile
  rw [filter_links_nil pn.history _ h]
  simp

theorem m1_links_cover (old new : Store) (h : (keysA new).Nodup) (k : String)
    (pn : StudentProfile) (hn : lookupA new k = some pn) :
    ∃ q, lookupA (merge_student_data old new).1 k = some q ∧
      (∀ a ∈ pn.history,
        ((q.history.map HistoryEntry.activity_link).contains a.activity_link) = true) := by
  cases ho : lookupA old k with
  | none =>
    refine ⟨pn, merge_new new old k pn h hn ho, ?_⟩
    intro a ha
    exact contains_of_mem_links pn.history a ha
  | some po =>
    refine ⟨mergedProfile po pn, merge_both new old k po pn h ho hn, ?_⟩
    intro a ha
    apply List.elem_iff.mpr
    rw [mergedProfile_history, List.map_append]
    by_cases hc : ((po.history.map HistoryEntry.activity_link).contains a.activity_link) = true
    · exact List.mem_append.mpr (Or.inl (List.elem_iff.mp hc))
    · apply List.mem_append.mpr
      right
      apply List.mem_map_of_mem
      apply List.mem_filter.mpr
      have hc2 : ((po.history.map HistoryEntry.activity_link).contains a.activity_link) = false := by
        simpa using hc
      exact ⟨ha, by rw [hc2]; rfl⟩

/-! ## Claim C2 -/

/-- C2: `merge_student_data` copies a student_id that is in `new` but absent
from `old` verbatim into the result, with `added_count` counting exactly
those copies; for a student_id present in both it appends exactly the
incoming history entries whose `activity_link` is absent from the existing
history's link set (counted by `updated_count`, one per appended entry) and
recomputes `stats.total_score` as the plain, unrounded score sum of the
merged history and `stats.activity_count` as the merged history's length;
student_ids absent from `new` are untouched. -/
theorem C2_merge_spec (old new : Store) (h : (keysA new).Nodup) :
    (∀ k pr, lookupA old k = none → lookupA new k = some pr →
      lookupA (merge_student_data old new).1 k = some pr)
    ∧ (∀ k, lookupA new k = none →
      lookupA (merge_student_data old new).1 k = lookupA old k)
    ∧ (∀ k po pn, lookupA old k = some po → lookupA new k = some pn →
      lookupA (merge_student_data old new).1 k = some (mergedProfile po pn))
    ∧ (∀ po pn, (mergedProfile po pn).history =
        po.history ++ pn.history.filter (fun a =>
          !((po.history.map HistoryEntry.activity_link).contains a.activity_link))
      ∧ (mergedProfile po pn).stats.total_score = sumScores (mergedProfile po pn).history
      ∧ (mergedProfile po pn).stats.activity_count = (mergedProfile po pn).history.length)
    ∧ (merge_student_data old new).2.1 =
        (new.filter (fun p => (lookupA old p.1).isNone)).length
    ∧ (merge_student_data old new).2.2 = (new.map (updWeight old)).sum := by
  refine ⟨?_, ?_, ?_, ?_, ?_, ?_⟩
  · intro k pr hn ho
    exact merge_new new old k pr h ho hn
  · intro k hn
    exact merge_notin new old k ((lookupA_eq_none new k).mp hn)
  · intro k po pn ho hn
    exact merge_both new old k po pn h ho hn
  · intro po pn
    exact ⟨rfl, rfl, rfl⟩
  · exact merge_added new old h
  · exact merge_updated new old h

/-- Witness for C2, instantiating the copy-verbatim clause on concrete
stores. -/
theorem C2_merge_spec_witness :
    (keysA [("S", profS)]).Nodup ∧
    lookupA (merge_student_data [("R", profR)] [("S", profS)]).1 "S" = some profS := by
  have h := C2_merge_spec [("R", profR)] [("S", profS)] (by decide)
  exact ⟨by decide, h.1 "S" profS rfl rfl⟩

/-! ## Claim C3 -/

/-- C3 (amended): merging the same `new` snapshot twice gives a second merge
with `updated_count = 0` and identical per-student history lengths; the
per-student `total_score` is also unchanged for every student_id already
present in `old`, but a student_id first added by the merge is copied
verbatim (keeping its stored, possibly rounded, total) and only the second
merge recomputes its total to the plain sum of its history scores, which can
differ. -/
theorem C3_merge_idem_amended (old new : Store) (h : (keysA new).Nodup) :
    (merge_student_data (merge_student_data old new).1 new).2.2 = 0
    ∧ (∀ k, ((lookupA (merge_student_data (merge_student_data old new).1 new).1 k).map
          (fun p => p.history.length))
        = ((lookupA (merge_student_data old new).1 k).map (fun p => p.history.length)))
    ∧ (∀ k po, lookupA old k = some po →
        ((lookupA (merge_student_data (merge_student_data old new).1 new).1 k).map
            (fun p => p.stats.total_score))
          = ((lookupA (merge_student_data old new).1 k).map (fun p => p.stats.total_score)))
    ∧ (∀ k pn, lookupA old k = none → lookupA new k = some pn →
        ((lookupA (merge_student_data old new).1 k).map (fun p => p.stats.total_score)
            = some pn.stats.total_score)
        ∧ ((lookupA (merge_student_data (merge_student_data old new).1 new).1 k).map
            (fun p => p.stats.total_score) = some (sumScores pn.history))) := by
  refine ⟨?_, ?_, ?_, ?_⟩
  · rw [merge_updated new _ h]
    apply List.sum_eq_zero
    intro x hx
    obtain ⟨p, hp, hx⟩ := List.mem_map.mp hx
    obtain ⟨q, hq, hcov⟩ :=
      m1_links_cover old new h p.1 p.2 (lookupA_of_mem new h p hp)
    rw [← hx]
    simp only [updWeight, hq]
    rw [filter_links_nil p.2.history _ hcov]
    rfl
  · intro k
    cases hn : lookupA new k with
    | none =>
      rw [merge_notin new _ k ((lookupA_eq_none new k).mp hn)]
    | some pn =>
      obtain ⟨q, hq, hcov⟩ := m1_links_cover old new h k pn hn
      rw [merge_both new _ k q pn h hq hn, hq, mergedProfile_covered q pn hcov]
      rfl
  · intro k po hpo
    cases hn : lookupA new k with
    | none =>
      rw [merge_notin new _ k ((lookupA_eq_none new k).mp hn)]
    | some pn =>
      obtain ⟨q, hq, hcov⟩ := m1_links_cover old new h k pn hn
      rw [merge_both new _ k q pn h hq hn, hq, mergedProfile_covered q pn hcov]
      have hq2 : q = mergedProfile po pn := by
        have h2 := merge_both new old k po pn h hpo hn
        rw [hq] at h2
        exact Option.some.inj h2
      have hqs : q.stats.total_score = sumScores q.history := by
        rw [hq2, mergedProfile_stats]
      simp [hqs]
  · intro k pn hpo hn
    have hq : lookupA (merge_student_data old new).1 k = some pn :=
      merge_new new old k pn h hn hpo
    constructor
    · rw [hq]
      rfl
    · have hcov : ∀ a ∈ pn.history,
          ((pn.history.map HistoryEntry.activity_link).contains a.activity_link) = true :=
        fun a ha => contains_of_mem_links pn.history a ha
      rw [merge_both new _ k pn pn h hq hn, mergedProfile_covered pn pn hcov]
      rfl

theorem sumScores_profS : sumScores profS.history = (1 : ℚ) / 4 := by
  simp [sumScores, profS]

theorem round1_quarter : round1 ((1 : ℚ) / 4) = (1 : ℚ) / 5 := by
  have hf : ⌊((10 : ℚ) * ((1 : ℚ) / 4))⌋ = 2 := by
    rw [Int.floor_eq_iff]
    norm_num
  simp only [round1, roundHalfEven, hf]
  rw [if_neg (by norm_num), if_neg (by norm_num), if_pos (by decide)]
  norm_num

theorem profS_self_cover : ∀ a ∈ profS.history,
    ((profS.history.map HistoryEntry.activity_link).contains a.activity_link) = true :=
  fun a ha => contains_of_mem_links profS.history a ha

theorem lookup_m1_S :
    lookupA (merge_student_data [("R", profR)] [("S", profS)]).1 "S" = some profS :=
  merge_new [("S", profS)] [("R", profR)] "S" profS (by decide) rfl rfl

/-- Counterexample to C3 as stated: after aggregation the profile for S has
history score 0.25 and rounded total 0.2; the first merge copies it verbatim
(total 0.2), the second recomputes the plain sum (total 0.25), so the
total_score differs between the two merges even though the second merge
reports updated_count 0. -/
theorem C3_counterexample :
    ((lookupA (merge_student_data [("R", profR)] [("S", profS)]).1 "S").map
        (fun p => p.stats.total_score) = some ((1 : ℚ) / 5))
    ∧ ((lookupA (merge_student_data (merge_student_data [("R", profR)] [("S", profS)]).1
          [("S", profS)]).1 "S").map (fun p => p.stats.total_score) = some ((1 : ℚ) / 4))
    ∧ ((merge_student_data (merge_student_data [("R", profR)] [("S", profS)]).1
          [("S", profS)]).2.2 = 0)
    ∧ ((1 : ℚ) / 5 ≠ (1 : ℚ) / 4) := by
  have hm2 := merge_both [("S", profS)] (merge_student_data [("R", profR)] [("S", profS)]).1
    "S" profS profS (by decide) lookup_m1_S rfl
  refine ⟨?_, ?_, ?_, ?_⟩
  · rw [lookup_m1_S]
    rfl
  · rw [hm2, mergedProfile_covered profS profS profS_self_cover]
    simp [sumScores_profS]
  · rw [merge_updated [("S", profS)] _ (by decide)]
    simp only [List.map_cons, List.map_nil, updWeight, lookup_m1_S]
    rw [filter_links_nil profS.history _ profS_self_cover]
    rfl
  · norm_num

/-- Witness for C3, instantiating the zero-update clause of the amended
theorem on concrete stores. -/
theorem C3_witness :
    (keysA [("S", profS)]).Nodup ∧
    (merge_student_data (merge_student_data [("R", profR)] [("S", profS)]).1
        [("S", profS)]).2.2 = 0 := by
  have h := C3_merge_idem_amended [("R", profR)] [("S", profS)] (by decide)
  exact ⟨by decide, h.1⟩

/-! ## Claim C1 -/

theorem lookupA_map_keyed (ids : List String) (g : String → StudentProfile) (k : String)
    (p : StudentProfile) (h : lookupA (ids.map (fun s => (s, g s))) k = some p) : p = g k := by
  induction ids with
  | nil => simp [lookupA] at h
  | cons s t ih =>
    rw [List.map_cons] at h
    by_cases hs : s = k
    · subst hs
      simp [lookupA] at h
      exact h.symm
    · simp only [lookupA, if_neg hs] at h
      exact ih h

/-- C1 (amended): every profile in the store built by aggregation satisfies
`stats.total_score = round1 (sum of history scores)` and
`stats.activity_count = len(history)`; a profile recomputed by the cross-run
merge for a student_id present in both snapshots instead satisfies
`stats.total_score = plain (unrounded) sum of history scores` and
`stats.activity_count = len(history)`. -/
theorem C1_stats_invariant_amended :
    (∀ (rows : List StudentRow) (k : String) (p : StudentProfile),
      lookupA (aggregate_by_student rows) k = some p →
      p.stats.total_score = round1 (sumScores p.history)
      ∧ p.stats.activity_count = p.history.length)
    ∧ (∀ (old new : Store) (k : String) (po pn q : StudentProfile), (keysA new).Nodup →
      lookupA old k = some po → lookupA new k = some pn →
      lookupA (merge_student_data old new).1 k = some q →
      q.stats.total_score = sumScores q.history
      ∧ q.stats.activity_count = q.history.length) := by
  constructor
  · intro rows k p h
    simp only [aggregate_by_student] at h
    have hp : p = aggProfile rows k := lookupA_map_keyed _ _ k p h
    subst hp
    constructor
    · simp only [aggProfile, sumScores, List.map_map]
      rfl
    · simp only [aggProfile, List.length_map]
  · intro old new k po pn q h hpo hpn hq
    have := merge_both new old k po pn h hpo hpn
    rw [hq] at this
    have hq2 : q = mergedProfile po pn := Option.some.inj this
    subst hq2
    exact ⟨rfl, rfl⟩

/-- Counterexample to C1 as stated: merging a snapshot into itself
recomputes S's total as the unrounded 0.25, while round(sum, 1) is 0.2. -/
theorem C1_counterexample :
    ((lookupA (merge_student_data [("S", profS)] [("S", profS)]).1 "S").map
        (fun p => p.stats.total_score) = some ((1 : ℚ) / 4))
    ∧ ((lookupA (merge_student_data [("S", profS)] [("S", profS)]).1 "S").map
        (fun p => round1 (sumScores p.history)) = some ((1 : ℚ) / 5))
    ∧ ((1 : ℚ) / 4 ≠ (1 : ℚ) / 5) := by
  have hm := merge_both [("S", profS)] [("S", profS)] "S" profS profS (by decide) rfl rfl
  rw [hm, mergedProfile_covered profS profS profS_self_cover]
  refine ⟨?_, ?_, ?_⟩
  · simp [sumScores_profS]
  · simp only [Option.map_some']
    show some (round1 (sumScores profS.history)) = some ((1 : ℚ) / 5)
    rw [sumScores_profS, round1_quarter]
  · norm_num

/-- Witness for C1, instantiating the aggregation clause on one concrete
row. -/
theorem C1_witness :
    (aggProfile [rowA] "S1").stats.total_score =
        round1 (sumScores (aggProfile [rowA] "S1").history)
    ∧ (aggProfile [rowA] "S1").stats.activity_count =
        (aggProfile [rowA] "S1").history.length :=
  C1_stats_invariant_amended.1 [rowA] "S1" (aggProfile [rowA] "S1") rfl

/-! ## Claim C4 -/

/-- Counterexample to C4 as stated: the document-table path has no
plausibility ceiling, so its `parse_score("2024")` is 2024.0, not 0.0. -/
theorem C4_counterexample :
    Parser.parse_score "2024" = 2024 ∧ (2024 : ℚ) ≠ 0 := by
  constructor
  · show ((digitsToNat ['2', '0', '2', '4'] : ℚ) + 0) = 2024
    rw [show digitsToNat ['2', '0', '2', '4'] = 2024 from rfl]
    norm_num
  · norm_num

theorem matchValue_205 : matchValue (['2', '0'], some ['5']) = 41 / 2 := by
  show ((digitsToNat ['2', '0'] : ℚ) + (digitsToNat ['5'] : ℚ) / (10 : ℚ) ^ (List.length ['5'])) = 41 / 2
  rw [show digitsToNat ['2', '0'] = 20 from rfl, show digitsToNat ['5'] = 5 from rfl,
      show List.length ['5'] = 1 from rfl]
  norm_num

theorem matchValue_2024 : matchValue (['2', '0', '2', '4'], none) = 2024 := by
  show ((digitsToNat ['2', '0', '2', '4'] : ℚ) + 0) = 2024
  rw [show digitsToNat ['2', '0', '2', '4'] = 2024 from rfl]
  norm_num

/-- C4 (amended): the spreadsheet path implements the full policy — 0.0 for
a missing or date-typed cell, comma-to-period repair, first-number
extraction, and 0.0 for a parsed value of 1000 or more — and on text input
it equals the document-path parser with the ceiling applied on top; the
document path itself has no date check and no ceiling, so its
`parse_score("2024")` is 2024.0. -/
theorem C4_parse_score_amended :
    (∀ s : String, SheetParser.parse_score (ScoreCell.txt s) =
      if Parser.parse_score s < 1000 then Parser.parse_score s else 0)
    ∧ SheetParser.parse_score ScoreCell.na = 0
    ∧ SheetParser.parse_score ScoreCell.date = 0
    ∧ SheetParser.parse_score (ScoreCell.txt "20,5 điểm") = 41 / 2
    ∧ SheetParser.parse_score (ScoreCell.txt "2024") = 0
    ∧ Parser.parse_score "20,5 điểm" = 41 / 2
    ∧ Parser.parse_score "2024" = 2024 := by
  refine ⟨?_, rfl, rfl, ?_, ?_, ?_, ?_⟩
  · intro s
    by_cases hs : s = ""
    · subst hs
      have h1 : Parser.parse_score "" = 0 := rfl
      have h2 : SheetParser.parse_score (ScoreCell.txt "") = 0 := rfl
      rw [h1, h2, if_pos (by norm_num)]
    · simp only [SheetParser.parse_score, Parser.parse_score, if_neg hs]
      cases hm : firstNumberMatch (pyReplace (pyStrip s) "," ".").toList with
      | none =>
        show (0 : ℚ) = if (0 : ℚ) < 1000 then (0 : ℚ) else 0
        rw [if_pos (by norm_num)]
      | some m => rfl
  · rw [show SheetParser.parse_score (ScoreCell.txt "20,5 điểm") =
        (if matchValue (['2', '0'], some ['5']) < 1000 then
          matchValue (['2', '0'], some ['5']) else 0) from rfl]
    rw [matchValue_205, if_pos (by norm_num)]
  · rw [show SheetParser.parse_score (ScoreCell.txt "2024") =
        (if matchValue (['2', '0', '2', '4'], none) < 1000 then
          matchValue (['2', '0', '2', '4'], none) else 0) from rfl]
    rw [matchValue_2024, if_neg (by norm_num)]
  · rw [show Parser.parse_score "20,5 điểm" = matchValue (['2', '0'], some ['5']) from rfl]
    exact matchValue_205
  · rw [show Parser.parse_score "2024" = matchValue (['2', '0', '2', '4'], none) from rfl]
    exact matchValue_2024

/-! ## Claim C5 -/

/-- Counterexample to C5 as stated: on a pair falling in the "otherwise"
case, the function returns the stripped strings, not the raw pair
unchanged. -/
theorem C5_counterexample :
    Parser.smart_swap_id_class " a " "b" = ("a", "b")
    ∧ Parser.is_class_code " a " = false
    ∧ " a " ≠ ""
    ∧ Parser.is_student_id "b" = false
    ∧ (("a", "b") : String × String) ≠ (" a ", "b") := by decide

/-- C5 (amended): with both inputs trimmed first (shape tests and returned
values all refer to the trimmed strings), the three repair cases of the
claim hold, and in every remaining case the function returns the trimmed
pair; in particular the spec's example swap holds. -/
theorem C5_smart_swap_amended (rid rcls : String) :
    (Parser.is_class_code (pyStrip rid) = true → Parser.is_student_id (pyStrip rcls) = true →
      Parser.smart_swap_id_class rid rcls = (pyStrip rcls, pyStrip rid))
    ∧ (pyStrip rid = "" → Parser.is_student_id (pyStrip rcls) = true →
      Parser.smart_swap_id_class rid rcls = (pyStrip rcls, ""))
    ∧ (Parser.is_class_code (pyStrip rid) = true → pyStrip rcls = "" →
      Parser.smart_swap_id_class rid rcls = ("", pyStrip rid))
    ∧ (Parser.is_class_code (pyStrip rid) = false → Parser.is_student_id (pyStrip rcls) = false →
      Parser.smart_swap_id_class rid rcls = (pyStrip rid, pyStrip rcls))
    ∧ (Parser.is_class_code (pyStrip rid) = false → pyStrip rid ≠ "" →
      Parser.smart_swap_id_class rid rcls = (pyStrip rid, pyStrip rcls))
    ∧ (Parser.is_class_code (pyStrip rid) = true → Parser.is_student_id (pyStrip rcls) = false →
      pyStrip rcls ≠ "" → Parser.smart_swap_id_class rid rcls = (pyStrip rid, pyStrip rcls))
    ∧ Parser.smart_swap_id_class "22DHTT02" "2254810315" = ("2254810315", "22DHTT02")
    ∧ Parser.smart_swap_id_class "" "2254810315" = ("2254810315", "") := by
  refine ⟨?_, ?_, ?_, ?_, ?_, ?_, by decide, by decide⟩
  · intro h1 h2
    simp [Parser.smart_swap_id_class, h1, h2]
  · intro h1 h2
    have hcc : Parser.is_class_code "" = false := by decide
    rw [Parser.smart_swap_id_class]
    simp [h1, h2, hcc]
  · intro h1 h2
    have hsid : Parser.is_student_id "" = false := by decide
    rw [Parser.smart_swap_id_class]
    simp [h1, h2, hsid]
  · intro h1 h2
    simp [Parser.smart_swap_id_class, h1, h2]
  · intro h1 h2
    simp [Parser.smart_swap_id_class, h1, h2]
  · intro h1 h2 h3
    simp [Parser.smart_swap_id_class, h1, h2, h3]

/-! ## Claim C8 -/

/-- Counterexample to C8 as stated: the document path never strips a
trailing ".0", and the spreadsheet path deletes every ".0" occurrence, even
a non-trailing one, losing a digit. -/
theorem C8_counterexample :
    Parser.clean_student_id "1234.0" = "1234.0"
    ∧ SheetParser.clean_student_id "1.023" = "123"
    ∧ "1234.0" ≠ "1234"
    ∧ "123" ≠ "1.023" := by decide

/-- C8 (amended): both paths trim, uppercase and delete spaces; only the
spreadsheet path touches ".0", and it removes every occurrence of the
two-character sequence ".0" wherever it appears (so a trailing coercion
artifact is removed, but an interior ".0" is deleted as well, dropping a
digit); the document path keeps any ".0" intact. -/
theorem C8_clean_student_id_amended (s : String) :
    (s ≠ "" → Parser.clean_student_id s = pyReplace (pyUpperStr (pyStrip s)) " " "")
    ∧ SheetParser.clean_student_id s =
        pyReplace (pyReplace (pyUpperStr (pyStrip s)) " " "") ".0" ""
    ∧ (s ≠ "" → SheetParser.clean_student_id s = pyReplace (Parser.clean_student_id s) ".0" "")
    ∧ SheetParser.clean_student_id "2254810315.0" = "2254810315"
    ∧ Parser.clean_student_id "1234.0" = "1234.0"
    ∧ SheetParser.clean_student_id "1.023" = "123" := by
  refine ⟨?_, rfl, ?_, by decide, by decide, by decide⟩
  · intro h
    simp [Parser.clean_student_id, h]
  · intro h
    simp [SheetParser.clean_student_id, Parser.clean_student_id, h]

/-- Witness for C8, instantiating the nonempty-input clause. -/
theorem C8_witness :
    ("1234.0" : String) ≠ ""
    ∧ Parser.clean_student_id "1234.0" = pyReplace (pyUpperStr (pyStrip "1234.0")) " " "" :=
  ⟨by decide, (C8_clean_student_id_amended "1234.0").1 (by decide)⟩

/-- Witness for C5, instantiating the swap clause on the spec's example. -/
theorem C5_witness :
    Parser.is_class_code (pyStrip "22DHTT02") = true
    ∧ Parser.is_student_id (pyStrip "2254810315") = true
    ∧ Parser.smart_swap_id_class "22DHTT02" "2254810315" =
        (pyStrip "2254810315", pyStrip "22DHTT02") :=
  ⟨by decide, by decide,
    (C5_smart_swap_amended "22DHTT02" "2254810315").1 (by decide) (by decide)⟩

/-! ## Claim C6 -/

/-- Counterexample to C6 as stated: on the document path a surviving row
whose ordinal parses to 0 receives the identifier sentinel "UNKNOWN_ID"
without the "<ordinal>" suffix the claim mandates. -/
theorem C6_counterexample :
    (Parser.normalize_row "" "Nguyen" "" "" "0").map
        (fun r => (r.stt, r.name, r.student_id, r.student_class)) =
      some (0, "Nguyen", "UNKNOWN_ID", "UNKNOWN_CLASS")
    ∧ "UNKNOWN_ID" ≠ "UNKNOWN_ID_0" := by decide

/-- C6 (amended): a document-path row is discarded iff, after the swap
heuristic and cleaning, both the identifier and the name are empty; a kept
row with an empty name gets "UNKNOWN_NAME" with its identifier preserved; a
kept row with an empty identifier gets "UNKNOWN_ID_<ordinal>" when the
parsed ordinal is positive but the bare "UNKNOWN_ID" when it is 0.  On the
spreadsheet path a row is discarded iff both the identifier and the name
are empty or one of the string forms nan/none/null (case-insensitively),
and a kept row with such a name gets "UNKNOWN_NAME" with its identifier
preserved. -/
theorem C6_normalize_amended :
    (∀ stt_text name rid rcls sc, Parser.normalize_row stt_text name rid rcls sc = none ↔
      (Parser.clean_student_id (Parser.smart_swap_id_class rid rcls).1 = "" ∧ name = ""))
    ∧ (∀ stt_text name rid rcls sc,
        Parser.clean_student_id (Parser.smart_swap_id_class rid rcls).1 ≠ "" → name = "" →
        (Parser.normalize_row stt_text name rid rcls sc).map (fun r => (r.name, r.student_id)) =
          some ("UNKNOWN_NAME", Parser.clean_student_id (Parser.smart_swap_id_class rid rcls).1))
    ∧ (∀ stt_text name rid rcls sc,
        Parser.clean_student_id (Parser.smart_swap_id_class rid rcls).1 = "" → name ≠ "" →
        (Parser.normalize_row stt_text name rid rcls sc).map (fun r => r.student_id) =
          some (if 0 < Parser.parse_stt stt_text then
            "UNKNOWN_ID_" ++ toString (Parser.parse_stt stt_text) else "UNKNOWN_ID"))
    ∧ (∀ stt name rid rcls sc an al,
        SheetParser.normalize_row stt name rid rcls sc an al = none ↔
        ((SheetParser.clean_student_id (SheetParser.smart_swap_id_class rid rcls).1 = "" ∨
            SheetParser.clean_student_id (SheetParser.smart_swap_id_class rid rcls).1 ∈
              SheetParser.invalid_ids)
          ∧ (pyStrip name = "" ∨ pyLowerStr (pyStrip name) ∈ SheetParser.invalid_names)))
    ∧ ((SheetParser.normalize_row 1 "nan" "2254810315" "" ScoreCell.na "A" "L").map
        (fun r => (r.name, r.student_id)) = some ("UNKNOWN_NAME", "2254810315")) := by
  refine ⟨?_, ?_, ?_, ?_, by decide⟩
  · intro stt_text name rid rcls sc
    by_cases h1 : Parser.clean_student_id (Parser.smart_swap_id_class rid rcls).1 = "" <;>
      by_cases h2 : name = "" <;>
      simp [Parser.normalize_row, h1, h2]
  · intro stt_text name rid rcls sc h1 h2
    simp [Parser.normalize_row, h1, h2]
  · intro stt_text name rid rcls sc h1 h2
    by_cases h3 : 0 < Parser.parse_stt stt_text <;>
      simp [Parser.normalize_row, h1, h2, h3]
  · intro stt name rid rcls sc an al
    by_cases h1 : SheetParser.clean_student_id (SheetParser.smart_swap_id_class rid rcls).1 = "" ∨
        SheetParser.clean_student_id (SheetParser.smart_swap_id_class rid rcls).1 ∈
          SheetParser.invalid_ids <;>
      by_cases h2 : pyStrip name = "" ∨ pyLowerStr (pyStrip name) ∈ SheetParser.invalid_names <;>
      simp [SheetParser.normalize_row, h1, h2]


/-- Witness for C6, instantiating the kept-row clause: empty name, non-empty
identifier. -/
theorem C6_witness :
    Parser.clean_student_id (Parser.smart_swap_id_class "2254810315" "").1 ≠ ""
    ∧ (Parser.normalize_row "1" "" "2254810315" "" "5").map (fun r => (r.name, r.student_id)) =
        some ("UNKNOWN_NAME",
          Parser.clean_student_id (Parser.smart_swap_id_class "2254810315" "").1) :=
  ⟨by decide, C6_normalize_amended.2.1 "1" "" "2254810315" "" "5" (by decide) rfl⟩

/-! ## Claim C7 -/

/-- C7: `search_student` returns `[]` on an empty or whitespace-only query;
a query holding a digit performs the identifier search (the exact-match
profile alone when the stripped uppercased query is a key, else the
case-insensitive substring scan over ids, capped at 10); a digit-free query
performs the diacritic-stripped, case-insensitive substring scan over names,
capped at 10; every result list has at most 10 entries. -/
theorem C7_search_student_dispatch (q : String) (data : Store) :
    (pyStrip q = "" → Searcher.search_student q data = [])
    ∧ (Searcher.has_digit (pyStrip q) = true →
        (∀ p, lookupA data (pyUpperStr (pyStrip q)) = some p →
          Searcher.search_student q data = [(pyUpperStr (pyStrip q), p)])
        ∧ (lookupA data (pyUpperStr (pyStrip q)) = none →
          Searcher.search_student q data =
            (data.filter (fun e => pyIn (pyUpperStr (pyStrip q)) (pyUpperStr e.1))).take 10))
    ∧ (Searcher.has_digit (pyStrip q) = false → pyStrip q ≠ "" →
        Searcher.search_student q data =
          (data.filter (fun e =>
            pyIn (Searcher.remove_vietnamese_diacritics (pyStrip q))
              (Searcher.remove_vietnamese_diacritics e.2.info.name))).take 10)
    ∧ (Searcher.search_student q data).length ≤ 10 := by
  have hne_of_digit : Searcher.has_digit (pyStrip q) = true → pyStrip q ≠ "" := by
    intro hd hc
    rw [hc] at hd
    exact absurd hd (by decide)
  have hmssv : Searcher.search_by_mssv (pyStrip q) data =
      match lookupA data (pyUpperStr (pyStrip q)) with
      | some sd => [(pyUpperStr (pyStrip q), sd)]
      | none => (data.filter (fun e =>
          pyIn (pyUpperStr (pyStrip q)) (pyUpperStr e.1))).take 10 := by
    simp only [Searcher.search_by_mssv, pyStrip_idem]
  have hname : Searcher.search_by_name (pyStrip q) data =
      (data.filter (fun e =>
        pyIn (Searcher.remove_vietnamese_diacritics (pyStrip q))
          (Searcher.remove_vietnamese_diacritics e.2.info.name))).take 10 := by
    simp only [Searcher.search_by_name, pyStrip_idem]
  refine ⟨?_, ?_, ?_, ?_⟩
  · intro h
    simp [Searcher.search_student, h]
  · intro hd
    have hne := hne_of_digit hd
    constructor
    · intro p hp
      simp only [Searcher.search_student, if_neg hne, hd, if_true]
      rw [hmssv, hp]
    · intro hp
      simp only [Searcher.search_student, if_neg hne, hd, if_true]
      rw [hmssv, hp]
  · intro hd hne
    simp only [Searcher.search_student, if_neg hne, hd]
    rw [if_neg (by simp), hname]
  · by_cases h0 : pyStrip q = ""
    · simp [Searcher.search_student, h0]
    · cases hd : Searcher.has_digit (pyStrip q) with
      | false =>
        have hb : Searcher.search_student q data = Searcher.search_by_name (pyStrip q) data := by
          simp only [Searcher.search_student, if_neg h0, hd]
          rw [if_neg (by simp)]
        rw [hb, hname, List.length_take]
        exact min_le_left _ _
      | true =>
        have hb : Searcher.search_student q data = Searcher.search_by_mssv (pyStrip q) data := by
          simp only [Searcher.search_student, if_neg h0, hd, if_true]
        rw [hb, hmssv]
        cases lookupA data (pyUpperStr (pyStrip q)) with
        | some sd => simp
        | none =>
          rw [List.length_take]
          exact min_le_left _ _

/-- Witness for C7, instantiating the exact-match branch of the identifier
search on a one-profile store. -/
theorem C7_witness :
    Searcher.has_digit (pyStrip "2254810315") = true
    ∧ lookupA [("2254810315", profS)] (pyUpperStr (pyStrip "2254810315")) = some profS
    ∧ Searcher.search_student "2254810315" [("2254810315", profS)] =
        [(pyUpperStr (pyStrip "2254810315"), profS)] :=
  ⟨by decide, rfl,
    ((C7_search_student_dispatch "2254810315" [("2254810315", profS)]).2.1 (by decide)).1
      profS rfl⟩

/-! ## Claim C9 -/

theorem extractLoop_shape (wb : Workbook) (c y : Nat) (o : Bool) :
    ∀ (rows : List Nat) (acc L : List LinkRef),
      Extractor.extractLoop wb c y o rows acc none = Except.ok L →
      ∃ suf, L = acc ++ suf := by
  intro rows
  induction rows with
  | nil =>
    intro acc L h
    simp only [Extractor.extractLoop] at h
    refine ⟨[], ?_⟩
    rw [← Except.ok.inj h]
    simp
  | cons r rs ih =>
    intro acc L h
    have hbn : Extractor.brkLimit none acc = false := rfl
    simp only [Extractor.extractLoop, hbn, Bool.false_eq_true, if_false] at h
    cases hm : Extractor.processRow wb c y o r with
    | error e => rw [hm] at h; simp at h
    | ok opt =>
      rw [hm] at h
      cases opt with
      | none => exact ih acc L h
      | some l =>
        obtain ⟨suf2, hs2⟩ := ih (acc ++ [l]) L h
        refine ⟨l :: suf2, ?_⟩
        rw [hs2, List.append_assoc]
        rfl

theorem extractLoop_limit (wb : Workbook) (c y : Nat) (o : Bool) :
    ∀ (rows : List Nat) (acc suf : List LinkRef) (lim : Nat), 0 < lim → acc.length ≤ lim →
      Extractor.extractLoop wb c y o rows acc none = Except.ok (acc ++ suf) →
      Extractor.extractLoop wb c y o rows acc (some lim) =
        Except.ok (acc ++ suf.take (lim - acc.length)) := by
  intro rows
  induction rows with
  | nil =>
    intro acc suf lim hl hacc h
    simp only [Extractor.extractLoop] at h ⊢
    have h2 : acc = acc ++ suf := Except.ok.inj h
    have h4 := congrArg List.length h2
    rw [List.length_append] at h4
    have h5 : suf.length = 0 := by omega
    have h6 : suf = [] := List.eq_nil_of_length_eq_zero h5
    subst h6
    simp
  | cons r rs ih =>
    intro acc suf lim hl hacc h
    have hbn : Extractor.brkLimit none acc = false := rfl
    simp only [Extractor.extractLoop, hbn, Bool.false_eq_true, if_false] at h
    by_cases heq : acc.length = lim
    · have hbs : Extractor.brkLimit (some lim) acc = true := by
        simp only [Extractor.brkLimit]
        rw [Bool.and_eq_true]
        constructor
        · simp only [bne_iff_ne]
          omega
        · simp only [decide_eq_true_eq]
          omega
      simp only [Extractor.extractLoop, hbs, if_true]
      rw [show lim - acc.length = 0 from by omega]
      simp
    · have hlt : acc.length < lim := by omega
      have hbs : Extractor.brkLimit (some lim) acc = false := by
        simp only [Extractor.brkLimit]
        rw [Bool.and_eq_false_iff]
        right
        simp only [decide_eq_false_iff_not]
        omega
      simp only [Extractor.extractLoop, hbs, Bool.false_eq_true, if_false]
      cases hm : Extractor.processRow wb c y o r with
      | error e => rw [hm] at h; simp at h
      | ok opt =>
        rw [hm] at h
        cases opt with
        | none => exact ih acc suf lim hl (by omega) h
        | some l =>
          obtain ⟨suf2, hs2⟩ := extractLoop_shape wb c y o rs (acc ++ [l]) (acc ++ suf) h
          have hsuf : suf = l :: suf2 := by
            rw [List.append_assoc] at hs2
            have h3 := List.append_cancel_left hs2
            simpa using h3
          rw [hs2] at h
          have hrec := ih (acc ++ [l]) suf2 lim hl (by simp; omega) h
          show Extractor.extractLoop wb c y o rs (acc ++ [l]) (some lim) =
            Except.ok (acc ++ List.take (lim - acc.length) suf)
          rw [hrec, hsuf]
          have hlen : (acc ++ [l]).length = acc.length + 1 := by simp
          rw [hlen]
          rw [show lim - acc.length = (lim - (acc.length + 1)) + 1 from by omega]
          rw [List.take_succ_cons]
          rw [List.append_assoc]
          rfl

/-- C9 (amended): for every positive limit, whenever the unlimited scan
returns a reference list L, the limited scan returns exactly the first
`limit` elements of L (hence at most `limit` references); a limit of 0 is
falsy in the break test and disables truncation entirely. -/
theorem C9_extract_links_limit (wb : Workbook) (lim : Nat) (L : List LinkRef)
    (hl : 0 < lim) (hfull : Extractor.extract_links wb none = Except.ok L) :
    Extractor.extract_links wb (some lim) = Except.ok (L.take lim)
    ∧ (L.take lim).length ≤ lim := by
  cases hc : Extractor.find_link_column wb 2 with
  | none =>
    simp only [Extractor.extract_links, hc] at hfull
    exact Except.noConfusion hfull
  | some c =>
    simp only [Extractor.extract_links, hc] at hfull ⊢
    constructor
    · have hlim := extractLoop_limit wb c (Extractor.get_file_year wb)
        (decide (Extractor.get_file_year wb ≤ 2022)) (Extractor.rowRange wb) [] L lim hl
        (by simp) (by simpa using hfull)
      simpa using hlim
    · rw [List.length_take]
      exact min_le_left _ _

/-- Counterexample to C9 as stated: with the provided limit value 0 the scan
returns both links of the workbook, more than 0 references. -/
theorem C9_counterexample :
    Extractor.extract_links wbNew (some 0) = Except.ok [wbLinkX, wbLinkY]
    ∧ ¬ (([wbLinkX, wbLinkY] : List LinkRef).length ≤ 0) := by
  constructor
  · rfl
  · decide

/-- Witness for C9, instantiating the amended theorem at limit 1 on the
two-link workbook. -/
theorem C9_witness :
    (0 : Nat) < 1
    ∧ Extractor.extract_links wbNew none = Except.ok [wbLinkX, wbLinkY]
    ∧ Extractor.extract_links wbNew (some 1) =
        Except.ok (([wbLinkX, wbLinkY] : List LinkRef).take 1)
    ∧ (([wbLinkX, wbLinkY] : List LinkRef).take 1).length ≤ 1 := by
  have h := C9_extract_links_limit wbNew 1 [wbLinkX, wbLinkY] (by decide) rfl
  exact ⟨by decide, rfl, h.1, h.2⟩

/-! ## Claim C10 -/

theorem processCell_old_missing_year (wb : Workbook) (y : Nat) (cell : XCell)
    (h20 : y ≠ 2020) (h21 : y ≠ 2021) (h22 : y ≠ 2022) :
    Extractor.processCell wb y true cell =
      (if cellQualifies wb cell = true then Except.error ("KeyError: " ++ toString y)
       else Except.ok none) := by
  have hlk : Extractor.lookupNat Extractor.MASTER_LINK y = none := by
    simp [Extractor.lookupNat, Extractor.MASTER_LINK, Ne.symm h20, Ne.symm h21, Ne.symm h22]
  obtain ⟨cval, chyp⟩ := cell
  simp only [Extractor.processCell, cellQualifies]
  cases chyp with
  | none => rfl
  | some hl =>
    obtain ⟨htarget, hlocation⟩ := hl
    cases hlocation with
    | none => rfl
    | some loc =>
      by_cases hloc : loc = ""
      · simp [hloc]
      · simp only [if_neg hloc]
        cases Extractor.parse_sheet_location loc with
        | none => rfl
        | some nm =>
          by_cases hnm : wb.sheetnames.contains nm = true
          · simp only [hnm, if_true, if_pos hnm, if_neg h21, hlk]
          · have hnm2 : nm ∉ wb.sheetnames := by simpa using hnm
            simp [hnm2]

theorem processRow_old_missing_year (wb : Workbook) (c r : Nat) (y : Nat)
    (h20 : y ≠ 2020) (h21 : y ≠ 2021) (h22 : y ≠ 2022) :
    Extractor.processRow wb c y true r =
      (if rowQualifies wb c r = true then Except.error ("KeyError: " ++ toString y)
       else Except.ok none) :=
  processCell_old_missing_year wb y (Extractor.cellAt wb r c) h20 h21 h22

theorem extractLoop_error_of_qualifying (wb : Workbook) (c y : Nat)
    (h20 : y ≠ 2020) (h21 : y ≠ 2021) (h22 : y ≠ 2022) :
    ∀ (rows : List Nat) (acc : List LinkRef),
      (∃ r ∈ rows, rowQualifies wb c r = true) →
      Extractor.extractLoop wb c y true rows acc none =
        Except.error ("KeyError: " ++ toString y) := by
  intro rows
  induction rows with
  | nil => intro acc h; simp at h
  | cons r rs ih =>
    intro acc h
    have hbn : Extractor.brkLimit none acc = false := rfl
    simp only [Extractor.extractLoop, hbn, Bool.false_eq_true, if_false]
    rw [processRow_old_missing_year wb c r y h20 h21 h22]
    by_cases hq : rowQualifies wb c r = true
    · rw [if_pos hq]
    · rw [if_neg hq]
      show Extractor.extractLoop wb c y true rs acc none = _
      apply ih
      rcases h with ⟨r2, hr2, hq2⟩
      rcases List.mem_cons.mp hr2 with he | hmem
      · rw [← he] at hq
        exact absurd hq2 hq
      · exact ⟨r2, hmem, hq2⟩

/-- C10: for a workbook whose filename year token is at most 2022 but is
none of 2020, 2021, 2022, as soon as the scan reaches a row carrying an
internal hyperlink whose referenced sheet exists, `extract_links` fails with
the KeyError on the `MASTER_LINK` table instead of returning a reference
list. -/
theorem C10_extract_links_keyerror (wb : Workbook) (c : Nat)
    (hy : Extractor.get_file_year wb ≤ 2022)
    (h20 : Extractor.get_file_year wb ≠ 2020)
    (h21 : Extractor.get_file_year wb ≠ 2021)
    (h22 : Extractor.get_file_year wb ≠ 2022)
    (hc : Extractor.find_link_column wb 2 = some c)
    (hrow : ∃ r ∈ Extractor.rowRange wb, rowQualifies wb c r = true) :
    Extractor.extract_links wb none =
      Except.error ("KeyError: " ++ toString (Extractor.get_file_year wb)) := by
  simp only [Extractor.extract_links, hc]
  rw [decide_eq_true hy]
  exact extractLoop_error_of_qualifying wb c _ h20 h21 h22 (Extractor.rowRange wb) [] hrow

/-- Witness for C10 on the 2019 workbook with one valid internal link. -/
theorem C10_witness :
    Extractor.get_file_year wbOld19 ≤ 2022
    ∧ Extractor.find_link_column wbOld19 2 = some 1
    ∧ Extractor.extract_links wbOld19 none =
        Except.error ("KeyError: " ++ toString (Extractor.get_file_year wbOld19)) := by
  refine ⟨by decide, by decide, ?_⟩
  exact C10_extract_links_keyerror wbOld19 1 (by decide) (by decide) (by decide) (by decide)
    (by decide) (by decide)
